import Mathlib

/-
Verification of the residual/Jacobian engine of `opt_runner.py`
(`pr2_calibration_estimation`).

The Python source is shallowly embedded: numeric doubles become `ℚ`
(every float literal appearing in the code, such as the finite-difference
step `1e-6`, is exactly representable), numpy vectors become `List ℚ`,
numpy 2-D arrays become total functions `Nat → Nat → ℚ` whose entries
outside the allocated shape are `0` (matching the zero initialisation of
every array the code allocates), and code that raises an exception
returns `none`.

External collaborators that the engine only calls through a narrow
contract (`RobotParams`, `MultiSensor`, the sensor classes,
`SingleTransform`) are not part of the sources; they are modelled from
the specification as structures of abstract functions, so every theorem
below is quantified over all implementations of those contracts.
-/

/-- 3-D points produced by `Checkerboard.generate_points` and consumed by
`SingleTransform(...).transform *` and the sensors. Their inner structure is
never inspected by `opt_runner.py` itself. -/
abbrev Points := List (ℚ × ℚ × ℚ)

/-- A numpy 2-D array of rationals; entries outside the allocated shape are 0.
The shape is tracked separately where it matters. -/
abbrev Mat := Nat → Nat → ℚ

/-- Block assignment `M[r0:r0+nr, c0:c0+nc] = B`, the effect of numpy slice
assignment on a zero-based array. -/
def setBlock (M : Mat) (r0 c0 nr nc : Nat) (B : Mat) : Mat :=
  fun r c =>
    if r0 ≤ r ∧ r < r0 + nr ∧ c0 ≤ c ∧ c < c0 + nc then B (r - r0) (c - c0) else M r c

/-- `sum(free_list)` for a python list of booleans: the number of `True`
entries. -/
def countTrue : List Bool → Nat
  | [] => 0
  | b :: bs => (if b then 1 else 0) + countTrue bs

/-- `numpy.where(mask)[0]`: the indices of the `True` entries of `mask`, in
increasing order. -/
def npWhere : List Bool → List Nat
  | [] => []
  | b :: bs =>
      if b then 0 :: (npWhere bs).map (· + 1) else (npWhere bs).map (· + 1)

/-- `v[numpy.where(mask)]`: the entries of `v` at the `True` positions of
`mask`, in order. -/
def npSelect (mask : List Bool) (v : List α) (d : α) : List α :=
  (npWhere mask).map (fun i => v.getD i d)

/-- Elementwise `x + y` on equal-length numpy vectors. -/
def addVec (x y : List ℚ) : List ℚ := List.zipWith (· + ·) x y

/-- Elementwise `x - y` on equal-length numpy vectors. -/
def subVec (x y : List ℚ) : List ℚ := List.zipWith (· - ·) x y

/-- Elementwise `v / e` on a numpy vector. -/
def divVec (v : List ℚ) (e : ℚ) : List ℚ := v.map (· / e)

/-- `ErrorCalc.calculate_full_param_vec` (opt_runner.py lines 55-62):
`full_param_vec = self._expanded_params.copy();`
`full_param_vec[numpy.where(self._free_list), 0] = opt_param_vec`.
The copy of the cached baseline is walked in order; each position whose
free flag is `true` receives the next entry of `opt_param_vec`, every other
position keeps the baseline value.  (numpy raises when
`len(opt_param_vec)` differs from the number of `True` flags; the callers
guard on that length, and every theorem about this definition carries that
hypothesis.) -/
def calculate_full_param_vec : List ℚ → List Bool → List ℚ → List ℚ
  | [], _, _ => []
  | es, [], _ => es
  | _ :: es, true :: bs, o :: os => o :: calculate_full_param_vec es bs os
  | e :: es, true :: bs, [] => e :: calculate_full_param_vec es bs []
  | e :: es, false :: bs, os => e :: calculate_full_param_vec es bs os

-- ## the external collaborators, modelled from the spec

/-- The five parameter categories of the robot model. These are the
`required_keys` of `single_sensor_params_jacobian` (opt_runner.py line 143):
`['dh_chains', 'tilting_lasers', 'transforms', 'rectified_cams', 'checkerboards']`. -/
inductive ParamCategory
  | dh_chains
  | tilting_lasers
  | transforms
  | rectified_cams
  | checkerboards
deriving DecidableEq, Inhabited

/-- The `required_keys` list of opt_runner.py line 143, in source order. -/
def required_keys : List ParamCategory :=
  [.dh_chains, .tilting_lasers, .transforms, .rectified_cams, .checkerboards]

/-- A per-category sub-dictionary of a free/sparsity specification (maps
element names to per-parameter flags). Its internal structure is never
inspected by opt_runner.py; only the empty dictionary `{}` is distinguished,
because that is what the code inserts for a missing category. -/
abbrev CatDict := List (String × List Bool)

/-- Modelled from the spec: the Parameter Model (`RobotParams` of
robot_params.py, which is not among the sources). Per §6 it exposes a flat
ordered parameter vector and `calc_free`, which maps a category-keyed
free/sparsity specification to a boolean mask "same order/length as
`toFlatVector()`". The flat vector is the concatenation of one segment per
category (in `required_keys` order); `catFree` gives the per-category mask,
`catLen` the per-category segment length. An empty sub-dictionary marks no
parameter of its category as free (§4.1: an omitted category's "columns of
that sub-block remain zero"). `checkerboards` models
`robot_params.checkerboards[name].generate_points()` as a function of the
checkerboard name and the current (inflated) full parameter vector. -/
structure RobotParamsModel where
  catLen : ParamCategory → Nat
  catFree : ParamCategory → CatDict → List Bool
  catFree_len : ∀ c d, (catFree c d).length = catLen c
  catFree_empty : ∀ c, catFree c [] = List.replicate (catLen c) false
  checkerboards : String → List ℚ → Points

/-- Modelled from the spec: `RobotParams.calc_free` applied to a total
category-keyed specification, concatenating the per-category masks in
`required_keys` order. -/
def RobotParamsModel.calc_free (rp : RobotParamsModel) (d : ParamCategory → CatDict) :
    List Bool :=
  (required_keys.map (fun c => rp.catFree c (d c))).flatten

/-- Start offset of a category's segment inside the flat parameter vector
(the segments appear in `required_keys` order). -/
def RobotParamsModel.catStart (rp : RobotParamsModel) : ParamCategory → Nat
  | .dh_chains => 0
  | .tilting_lasers => rp.catLen .dh_chains
  | .transforms => rp.catLen .dh_chains + rp.catLen .tilting_lasers
  | .rectified_cams =>
      rp.catLen .dh_chains + rp.catLen .tilting_lasers + rp.catLen .transforms
  | .checkerboards =>
      rp.catLen .dh_chains + rp.catLen .tilting_lasers + rp.catLen .transforms +
        rp.catLen .rectified_cams

/-- Modelled from the spec: a Sensor (external collaborator, §6). It declares
a fixed residual length (`residualLength()`), computes a residual from the
current full parameter vector (the state it pulls via `update_config`) and a
set of transformed target points (`compute_residual`), and reports which
parameters it depends on (`build_sparsity_dict`), category-keyed and possibly
omitting categories. -/
structure Sensor where
  residual_length : Nat
  residual_fn : List ℚ → Points → List ℚ
  build_sparsity_dict : ParamCategory → Option CatDict

instance : Inhabited Sensor := ⟨⟨0, fun _ _ => [], fun _ => none⟩⟩

/-- `sensor.get_residual_length()` of the sensor contract. -/
def Sensor.get_residual_length (s : Sensor) : Nat := s.residual_length

/-- Modelled from the spec: an Observation Group (`MultiSensor` of
multi_sensor.py, not among the sources): an ordered list of Sensors sharing
one observed target pose, plus the name of the checkerboard they observe. -/
structure MultiSensor where
  sensors : List Sensor
  checkerboard : String

instance : Inhabited MultiSensor := ⟨⟨[], ""⟩⟩

/-- Modelled from the spec: `multisensor.get_residual_length()` aggregates
"the sum of sensor residual lengths" (§4.2). -/
def MultiSensor.get_residual_length (ms : MultiSensor) : Nat :=
  (ms.sensors.map Sensor.get_residual_length).sum

/-- Modelled from the spec: `multisensor.compute_residual(points)` asks "each
sensor in the group to compute its residual against those transformed points"
and concatenates "sensor residuals in sensor order" (§4.1 step 3). Each
sensor reads the current full parameter vector (pulled by `update_config`). -/
def MultiSensor.compute_residual (ms : MultiSensor) (state : List ℚ) (pts : Points) :
    List ℚ :=
  (ms.sensors.map (fun s => s.residual_fn state pts)).flatten

/-- The `ErrorCalc` object (opt_runner.py lines 44-52). `robot_state` is the
current flat parameter vector of the shared mutable `self._robot_params`
(overwritten by every `inflate`); `expanded_params` is the snapshot
`robot_params.deflate()` taken in `__init__`; `free_list` is
`robot_params.calc_free(free_dict)`; `rp_model` carries the static structure
of the parameter model. -/
structure ErrorCalc where
  rp_model : RobotParamsModel
  robot_state : List ℚ
  expanded_params : List ℚ
  free_list : List Bool
  multisensors : List MultiSensor

/-- `ErrorCalc.__init__` (opt_runner.py lines 48-52): caches
`robot_params.deflate()` (the current state) and
`robot_params.calc_free(free_dict)`. -/
def ErrorCalc.init (rp : RobotParamsModel) (robot_state : List ℚ)
    (free_dict : ParamCategory → CatDict) (multisensors : List MultiSensor) : ErrorCalc :=
  ⟨rp, robot_state, robot_state, rp.calc_free free_dict, multisensors⟩

/-- The forward finite-difference step `epsilon = 1e-6` (opt_runner.py lines
163 and 191); `1e-6` is exactly the rational `1/1000000`. -/
def epsilon : ℚ := 1 / 1000000

/-- The finite-difference loop shared by `single_sensor_params_jacobian`
(lines 168-177) and `multisensor_pose_jacobian` (lines 195-201): for each
index `i` of `idxs`, set `dx[i] = epsilon`, evaluate the residual at
`x0 + dx`, store `(f(x0+dx) - f0)/epsilon` as row `i` of the transposed
Jacobian `Jt`, and restore `dx[i] = 0.0` before the next index. -/
def fd_loop (f : List ℚ → List ℚ) (x0 f0 : List ℚ) (eps : ℚ) :
    List Nat → List ℚ → List (List ℚ) → List (List ℚ)
  | [], _, Jt => Jt
  | i :: rest, dx, Jt =>
      let dx1 := dx.set i eps
      let fTest := f (addVec x0 dx1)
      let Jt1 := Jt.set i (divVec (subVec fTest f0) eps)
      let dx2 := dx1.set i 0
      fd_loop f x0 f0 eps rest dx2 Jt1

/-- View a list of rows as a 2-D array (entries outside the rows are the
zeros numpy allocated). -/
def rowsToMat (rows : List (List ℚ)) : Mat :=
  fun i j => (rows.getD i []).getD j 0

/-- `J = Jt.transpose()` (opt_runner.py lines 178 and 202). -/
def transposeMat (M : Mat) : Mat := fun i j => M j i

/-- The category-keyed sparsity dictionary after the fill loop of
opt_runner.py lines 143-146: `for cur_key in required_keys: if cur_key not in
sparsity_dict.keys(): sparsity_dict[cur_key] = {}` — a missing category is
replaced by the empty dictionary. -/
def fillRequired (d : ParamCategory → Option CatDict) : ParamCategory → CatDict :=
  fun c => (d c).getD []

/-- `opt_sparsity_vec` of opt_runner.py lines 148-154: the full sparsity
vector `self._robot_params.calc_free(sparsity_dict)` restricted to the free
positions, `full_sparsity_vec[numpy.where(self._free_list)].copy()`. -/
def ErrorCalc.sensorOptSparsity (ec : ErrorCalc) (sensor : Sensor) : List Bool :=
  let sparsity_dict := fillRequired sensor.build_sparsity_dict
  let full_sparsity_vec := ec.rp_model.calc_free sparsity_dict
  npSelect ec.free_list full_sparsity_vec false

/-- The residual a sensor produces for a trial free-parameter vector `v`
(opt_runner.py lines 157-165 and 170-176): inflate the model with
`calculate_full_param_vec(v)`, regenerate the target points
`target_pose_T * checkerboards[target_id].generate_points()`, and call
`sensor.compute_residual` on them. -/
def ErrorCalc.paramResidual (ec : ErrorCalc) (target_pose_T : Points → Points)
    (target_id : String) (sensor : Sensor) (v : List ℚ) : List ℚ :=
  let full_test_param_vec := calculate_full_param_vec ec.expanded_params ec.free_list v
  let target_points := target_pose_T (ec.rp_model.checkerboards target_id full_test_param_vec)
  sensor.residual_fn full_test_param_vec target_points

/-- `ErrorCalc.single_sensor_params_jacobian` (opt_runner.py lines 141-179):
build the filled sparsity dictionary, restrict it to the free positions,
then run the finite-difference loop over exactly the indices
`numpy.where(opt_sparsity_vec)[0]`, starting from `Jt = zeros([len(x0),
len(f0)])` and `dx = zeros(len(x0))`, and return `Jt.transpose()`. -/
def ErrorCalc.single_sensor_params_jacobian (ec : ErrorCalc) (opt_param_vec : List ℚ)
    (target_pose_T : Points → Points) (target_id : String) (sensor : Sensor) : Mat :=
  let opt_sparsity_vec := ec.sensorOptSparsity sensor
  let x0 := opt_param_vec
  let f0 := ec.paramResidual target_pose_T target_id sensor x0
  let Jt := fd_loop (ec.paramResidual target_pose_T target_id sensor) x0 f0 epsilon
      (npWhere opt_sparsity_vec)
      (List.replicate x0.length 0)
      (List.replicate x0.length (List.replicate f0.length 0))
  transposeMat (rowsToMat Jt)

/-- The residual of a whole observation group for a trial pose 6-vector `p`
(opt_runner.py lines 183-198): the model is inflated once with
`calculate_full_param_vec(opt_param_vec)` and the checkerboard points are
generated once; only the pose transform varies. `tp` models
`SingleTransform(p).transform *` (single_transform.py is not among the
sources; per §2 it is a 6-parameter transform applied to the point set). -/
def ErrorCalc.poseResidual (ec : ErrorCalc) (tp : List ℚ → Points → Points)
    (opt_param_vec : List ℚ) (multisensor : MultiSensor) (p : List ℚ) : List ℚ :=
  let full_param_vec := calculate_full_param_vec ec.expanded_params ec.free_list opt_param_vec
  let local_cb_points := ec.rp_model.checkerboards multisensor.checkerboard full_param_vec
  multisensor.compute_residual full_param_vec (tp p local_cb_points)

/-- `ErrorCalc.multisensor_pose_jacobian` (opt_runner.py lines 181-203): a
finite-difference loop over every index `i in range(len(x0))` of the pose
6-vector, starting from `Jt = zeros([len(x0), len(f0)])` and
`dx = zeros(len(x0))`, returning `Jt.transpose()`. -/
def ErrorCalc.multisensor_pose_jacobian (ec : ErrorCalc) (tp : List ℚ → Points → Points)
    (opt_param_vec pose_param_vec : List ℚ) (multisensor : MultiSensor) : Mat :=
  let x0 := pose_param_vec
  let f0 := ec.poseResidual tp opt_param_vec multisensor x0
  let Jt := fd_loop (ec.poseResidual tp opt_param_vec multisensor) x0 f0 epsilon
      (List.range x0.length)
      (List.replicate x0.length 0)
      (List.replicate x0.length (List.replicate f0.length 0))
  transposeMat (rowsToMat Jt)

/-- `numpy.reshape(full_pose_vec, [-1,6])` succeeds exactly when the length
is a multiple of 6; the rows are the consecutive 6-element chunks. -/
def chunk6 : List ℚ → List (List ℚ)
  | x1 :: x2 :: x3 :: x4 :: x5 :: x6 :: rest => [x1, x2, x3, x4, x5, x6] :: chunk6 rest
  | [] => []
  | rest => [rest]

/-- `ErrorCalc.split_all` (opt_runner.py lines 133-139): slice off the first
`sum(self._free_list)` entries as the free-parameter sub-vector (numpy slicing
truncates silently when the vector is shorter) and reshape the remainder into
6-element pose rows; `numpy.reshape` raises `ValueError` — modelled as `none`
— when the remainder's length is not a multiple of 6. No check relates the
number of pose rows to the number of observation groups. -/
def split_all (free_list : List Bool) (opt_all_vec : List ℚ) :
    Option (List ℚ × List (List ℚ)) :=
  let opt_param_len := countTrue free_list
  let opt_param_vec := opt_all_vec.take opt_param_len
  let full_pose_vec := opt_all_vec.drop opt_param_len
  if full_pose_vec.length % 6 = 0 then some (opt_param_vec, chunk6 full_pose_vec)
  else none

/-- `ErrorCalc.calculate_error` (opt_runner.py lines 64-88). Returns the
residual (or `none` where the python raises) together with the `ErrorCalc`
after the call. The failure points, in program order: `numpy.reshape` inside
`split_all` (line 138) raises when the pose suffix length is not a multiple
of 6, before anything else happens; the fancy-indexing assignment of
`calculate_full_param_vec` (line 60) raises `ValueError` when the sliced
free prefix length neither equals the free count nor is 1 — numpy
broadcasts a length-one value to every free position. Both of these precede
the `inflate` of line 73, which overwrites the shared model state with the
expanded vector. After that mutation the groups are paired with the pose
rows by `zip` (line 80), which silently drops unmatched groups or pose
rows, and `numpy.concatenate` (line 86) raises `ValueError` when the
resulting list is empty (no observation groups, or no pose rows) — the
model state stays mutated in that case. -/
def ErrorCalc.calculate_error (ec : ErrorCalc) (tp : List ℚ → Points → Points)
    (opt_all_vec : List ℚ) : Option (List ℚ) × ErrorCalc :=
  match split_all ec.free_list opt_all_vec with
  | none => (none, ec)
  | some (opt_param_vec, full_pose_arr) =>
      if opt_param_vec.length = countTrue ec.free_list ∨ opt_param_vec.length = 1 then
        let broadcast_param_vec :=
          if opt_param_vec.length = countTrue ec.free_list then opt_param_vec
          else List.replicate (countTrue ec.free_list) (opt_param_vec.getD 0 0)
        let full_param_vec :=
          calculate_full_param_vec ec.expanded_params ec.free_list broadcast_param_vec
        let ec1 : ErrorCalc :=
          ⟨ec.rp_model, full_param_vec, ec.expanded_params, ec.free_list, ec.multisensors⟩
        let r_list := (ec1.multisensors.zip full_pose_arr).map (fun p =>
          let cb_points := tp p.2 (ec1.rp_model.checkerboards p.1.checkerboard ec1.robot_state)
          p.1.compute_residual ec1.robot_state cb_points)
        if r_list.isEmpty then (none, ec1) else (some r_list.flatten, ec1)
      else (none, ec)

/-- `cumsum` bookkeeping of opt_runner.py lines 100-106 and 113-115: the
start of block `i` in a sequence of blocks with the given lengths
(`ms_start_row[i]`, `s_start_row[k]`; equally `ms_start_col[i] - opt_len` for
the uniform pose widths). -/
def blockStart (lens : List Nat) (i : Nat) : Nat := ((lens.take i).sum)

/-- The inner sensor loop of `calculate_jacobian` (opt_runner.py lines
118-121): `J_s_params = J_ms_params[s_start_row[k]:s_end_row[k], :];`
`J_s_params[:,:] = self.single_sensor_params_jacobian(...)` for each sensor
`k` of the group whose rows start at `msRow`. -/
def sensorLoop (ec : ErrorCalc) (opt_param_vec : List ℚ) (target_pose_T : Points → Points)
    (cb : String) (msRow : Nat) (s_r_len : List Nat) :
    Nat → List Sensor → Mat → Mat
  | _, [], J => J
  | k, s :: rest, J =>
      sensorLoop ec opt_param_vec target_pose_T cb msRow s_r_len (k + 1) rest
        (setBlock J (msRow + blockStart s_r_len k) 0
          s.get_residual_length opt_param_vec.length
          (ec.single_sensor_params_jacobian opt_param_vec target_pose_T cb s))

/-- The outer group loop of `calculate_jacobian` (opt_runner.py lines
109-128): for each observation group `i`, fill the parameter section one
sensor at a time, then assign the group's own 6-column pose block
`J[ms_start_row[i]:ms_end_row[i], ms_start_col[i]:ms_end_col[i]]`. -/
def groupLoop (ec : ErrorCalc) (tp : List ℚ → Points → Points) (opt_param_vec : List ℚ)
    (full_pose_arr : List (List ℚ)) (ms_r_len : List Nat) :
    Nat → List MultiSensor → Mat → Mat
  | _, [], J => J
  | i, ms :: rest, J =>
      let target_pose_T := tp (full_pose_arr.getD i [])
      let s_r_len := ms.sensors.map Sensor.get_residual_length
      let J1 := sensorLoop ec opt_param_vec target_pose_T ms.checkerboard
        (blockStart ms_r_len i) s_r_len 0 ms.sensors J
      let J2 := setBlock J1 (blockStart ms_r_len i) (opt_param_vec.length + 6 * i)
        ms.get_residual_length 6
        (ec.multisensor_pose_jacobian tp opt_param_vec (full_pose_arr.getD i []) ms)
      groupLoop ec tp opt_param_vec full_pose_arr ms_r_len (i + 1) rest J2

/-- `ErrorCalc.calculate_jacobian` (opt_runner.py lines 90-130): split the
optimization vector, allocate `J = zeros([sum(ms_r_len), len(opt_all_vec)])`,
and run the group loop. Returns the shape together with the matrix, and
`none` where the python raises: in `split_all`, at `full_pose_arr[i,:]`
(line 117) when there are fewer pose rows than groups, or in the
fancy-indexing assignment of `calculate_full_param_vec` (line 157) when the
free prefix length mismatches. (Extra pose rows beyond the group count are
silently ignored. Two corners are modelled conservatively as failures and
lie outside every theorem's hypotheses below: numpy would broadcast a
length-one prefix through lines 157-176, and with zero observation groups
the loop body — and hence the length check — never runs.) -/
def ErrorCalc.calculate_jacobian (ec : ErrorCalc) (tp : List ℚ → Points → Points)
    (opt_all_vec : List ℚ) : Option (Nat × Nat × Mat) :=
  match split_all ec.free_list opt_all_vec with
  | none => none
  | some (opt_param_vec, full_pose_arr) =>
      if opt_param_vec.length = countTrue ec.free_list ∧
          ec.multisensors.length ≤ full_pose_arr.length then
        let ms_r_len := ec.multisensors.map MultiSensor.get_residual_length
        some (ms_r_len.sum, opt_all_vec.length,
          groupLoop ec tp opt_param_vec full_pose_arr ms_r_len 0 ec.multisensors
            (fun _ _ => 0))
      else none

/-- The shape `(rows, cols)` of the Jacobian `calculate_jacobian` returns. -/
def jacShape (ec : ErrorCalc) (tp : List ℚ → Points → Points) (opt_all_vec : List ℚ) :
    Option (Nat × Nat) :=
  (ec.calculate_jacobian tp opt_all_vec).map (fun t => (t.1, t.2.1))

/-- Entry `(r, c)` of the Jacobian `calculate_jacobian` returns (`0` when the
call fails). -/
def jacEntry (ec : ErrorCalc) (tp : List ℚ → Points → Points) (opt_all_vec : List ℚ)
    (r c : Nat) : ℚ :=
  match ec.calculate_jacobian tp opt_all_vec with
  | some t => t.2.2 r c
  | none => 0

/-- The residual as the spec describes it (§4.1 `computeResidual`, steps
2-4): expand the free prefix into a full vector, and for each observation
group in order transform its checkerboard's canonical points by the group's
pose row and concatenate the sensor residuals in sensor order; finally
concatenate the group blocks in group order. -/
def residualSpec (ec : ErrorCalc) (tp : List ℚ → Points → Points) (v : List ℚ) : List ℚ :=
  let full_param_vec :=
    calculate_full_param_vec ec.expanded_params ec.free_list (v.take (countTrue ec.free_list))
  ((ec.multisensors.zip (chunk6 (v.drop (countTrue ec.free_list)))).map (fun p =>
    p.1.compute_residual full_param_vec
      (tp p.2 (ec.rp_model.checkerboards p.1.checkerboard full_param_vec)))).flatten

/-- `ms_start_row[i]` of opt_runner.py line 102. -/
def ErrorCalc.groupRowStart (ec : ErrorCalc) (i : Nat) : Nat :=
  blockStart (ec.multisensors.map MultiSensor.get_residual_length) i

/-- The declared residual length of observation group `i`. -/
def ErrorCalc.groupLen (ec : ErrorCalc) (i : Nat) : Nat :=
  (ec.multisensors.map MultiSensor.get_residual_length).getD i 0

/-- `ms_start_col[i]` of opt_runner.py lines 105-106: the first column of
group `i`'s 6-column pose block. -/
def ErrorCalc.poseColStart (ec : ErrorCalc) (i : Nat) : Nat :=
  countTrue ec.free_list + 6 * i

/-- `s_start_row[k]` of opt_runner.py line 115 for group `i`: the row offset
of sensor `k` inside its group's row range. -/
def ErrorCalc.sensorRowStart (ec : ErrorCalc) (i k : Nat) : Nat :=
  blockStart ((ec.multisensors.getD i default).sensors.map Sensor.get_residual_length) k

-- ## name bindings of opt_runner.py relevant to the `opt_runner` driver

/-- The names bound at module scope of opt_runner.py (lines 35-44 and 205):
the imports `roslib`, `RobotParams`, `SingleTransform`, `numpy`,
`scipy`, `sys`, the five names imported from numpy on line 40
(`from numpy import array, matrix, zeros, cumsum, concatenate`), and the two
top-level definitions `ErrorCalc` and `opt_runner`. -/
def opt_runner_module_names : List String :=
  ["roslib", "RobotParams", "SingleTransform", "numpy",
   "array", "matrix", "zeros", "cumsum", "concatenate",
   "scipy", "sys", "ErrorCalc", "opt_runner"]

/-- Every local name the body of `opt_runner` (opt_runner.py lines 205-245)
ever assigns: its four parameters and the assignment targets of lines
215-242. -/
def opt_runner_local_names : List String :=
  ["robot_params_dict", "pose_guess_arr", "free_dict", "multisensors",
   "robot_params", "error_calc", "expanded_param_vec", "free_list",
   "opt_param_vec", "opt_pose_vec", "opt_all",
   "x", "cov_x", "infodict", "mesg", "iter",
   "pose_vec", "opt_pose_arr", "output_dict", "final_error", "rms_error"]

-- ## concrete fixtures for the closed checks

/-- A pose transform that leaves the points unchanged (one admissible
`SingleTransform`). -/
def tpId : List ℚ → Points → Points := fun _ pts => pts

/-- A parameter model with no parameters at all. -/
def rpTrivial : RobotParamsModel :=
  ⟨fun _ => 0, fun _ _ => [], fun _ _ => rfl, fun _ => rfl, fun _ _ => []⟩

/-- A sensor with declared (and actual) residual length 2 and no parameter
dependencies. -/
def sensorPair : Sensor := ⟨2, fun _ _ => [3, 4], fun _ => some []⟩

/-- An observation group holding the single sensor `sensorPair`. -/
def msPair : MultiSensor := ⟨[sensorPair], "cb"⟩

/-- An engine over two observation groups and zero free parameters. -/
def ecPair : ErrorCalc := ⟨rpTrivial, [], [], [], [msPair, msPair]⟩

/-- A well-formed optimization vector for `ecPair`: 0 free parameters plus
two pose 6-vectors. -/
def vPair : List ℚ := [0, 0, 0, 0, 0, 0, 0, 0, 0, 0, 0, 0]

/-- A parameter model whose `dh_chains` category has two parameters and whose
other categories are empty; a sub-dictionary marks both parameters exactly
when it is nonempty. -/
def rpFree2 : RobotParamsModel :=
  ⟨fun c => match c with | .dh_chains => 2 | _ => 0,
   fun c d => List.replicate (match c with | .dh_chains => 2 | _ => 0) (!d.isEmpty),
   fun _ _ => by simp,
   fun _ => rfl,
   fun _ _ => []⟩

/-- A sensor whose sparsity dictionary is entirely absent (every category
omitted). -/
def sensorNoDeps : Sensor := ⟨1, fun st _ => [st.getD 0 0], fun _ => none⟩

/-- A sensor that declares a dependency on the `dh_chains` parameters. -/
def sensorDeps : Sensor := ⟨1, fun st _ => [st.getD 0 0], fun _ => some [("x", [true, true])]⟩

/-- An observation group holding the single sensor `sensorNoDeps`. -/
def msSingle : MultiSensor := ⟨[sensorNoDeps], "cb"⟩

/-- An engine over one observation group and two free parameters. -/
def ecFree2 : ErrorCalc := ⟨rpFree2, [0, 0], [0, 0], [true, true], [msSingle]⟩

/-- A well-formed optimization vector for `ecFree2`: 2 free parameters plus
one pose 6-vector. -/
def vFree2 : List ℚ := [1, 2, 0, 0, 0, 0, 0, 0]

/-- A parameter model whose `dh_chains` category has one parameter and whose
other categories are empty. -/
def rpCat1 : RobotParamsModel :=
  ⟨fun c => match c with | .dh_chains => 1 | _ => 0,
   fun c d => List.replicate (match c with | .dh_chains => 1 | _ => 0) (!d.isEmpty),
   fun _ _ => by simp,
   fun _ => rfl,
   fun _ _ => []⟩

/-- An engine over `rpCat1` whose single parameter is free. -/
def ecCat1 : ErrorCalc := ⟨rpCat1, [0], [0], [true], []⟩

/-- A pose transform producing one point whose first coordinate is the first
pose parameter. -/
def tpPose : List ℚ → Points → Points := fun p _ => [(p.getD 0 0, 0, 0)]

/-- A sensor reading back the first coordinate of the first target point. -/
def sensorPt : Sensor := ⟨1, fun _ pts => [(pts.getD 0 (0, 0, 0)).1], fun _ => some []⟩

/-- An observation group holding the single sensor `sensorPt`. -/
def msPt : MultiSensor := ⟨[sensorPt], "cb"⟩

/-- An engine over one observation group (`msPt`) and zero free parameters. -/
def ecPt : ErrorCalc := ⟨rpTrivial, [], [], [], [msPt]⟩

/-- A zero pose 6-vector. -/
def poseZero : List ℚ := [0, 0, 0, 0, 0, 0]

/-- A malformed optimization vector for `ecPair`: one pose row for two
observation groups. -/
def vPair6 : List ℚ := [0, 0, 0, 0, 0, 0]

/-- The identity on point sets (one admissible `target_pose_T`). -/
def tpPtsId : Points → Points := id


-- ## helper lemmas

theorem npWhere_length (l : List Bool) : (npWhere l).length = countTrue l := by
  induction l with
  | nil => rfl
  | cons b bs ih =>
      cases b <;> simp [npWhere, countTrue, ih, Nat.add_comm]

theorem npSelect_nil (mask : List Bool) (d : α) :
    npSelect mask ([] : List α) d = (npWhere mask).map (fun _ => d) := by
  simp [npSelect]

theorem npSelect_cons_true (bs : List Bool) (x : α) (xs : List α) (d : α) :
    npSelect (true :: bs) (x :: xs) d = x :: npSelect bs xs d := by
  simp [npSelect, npWhere, List.map_map, Function.comp]

theorem npSelect_cons_false (bs : List Bool) (x : α) (xs : List α) (d : α) :
    npSelect (false :: bs) (x :: xs) d = npSelect bs xs d := by
  simp [npSelect, npWhere, List.map_map, Function.comp]

theorem npSelect_length (mask : List Bool) (v : List α) (d : α) :
    (npSelect mask v d).length = countTrue mask := by
  simp [npSelect, npWhere_length]

theorem calculate_full_param_vec_length (es : List ℚ) (bs : List Bool) (os : List ℚ) :
    (calculate_full_param_vec es bs os).length = es.length := by
  induction es generalizing bs os with
  | nil => simp [calculate_full_param_vec]
  | cons e es ih =>
      cases bs with
      | nil => simp [calculate_full_param_vec]
      | cons b bs =>
          cases b
          · simp [calculate_full_param_vec, ih]
          · cases os with
            | nil => simp [calculate_full_param_vec, ih]
            | cons o os => simp [calculate_full_param_vec, ih]

theorem calculate_full_param_vec_not_free (es : List ℚ) (bs : List Bool) (os : List ℚ)
    (i : Nat) (hfree : bs.getD i false = false) :
    (calculate_full_param_vec es bs os).getD i 0 = es.getD i 0 := by
  induction es generalizing bs os i with
  | nil => simp [calculate_full_param_vec]
  | cons e es ih =>
      cases bs with
      | nil => simp [calculate_full_param_vec]
      | cons b bs =>
          cases b
          · cases i with
            | zero => simp [calculate_full_param_vec]
            | succ i => simpa [calculate_full_param_vec] using ih bs os i (by simpa using hfree)
          · cases i with
            | zero => simp at hfree
            | succ i =>
                cases os with
                | nil => simpa [calculate_full_param_vec] using ih bs [] i (by simpa using hfree)
                | cons o os => simpa [calculate_full_param_vec] using ih bs os i (by simpa using hfree)

theorem calculate_full_param_vec_select (es : List ℚ) (bs : List Bool) (os : List ℚ)
    (hlen : bs.length = es.length) (hopt : os.length = countTrue bs) :
    npSelect bs (calculate_full_param_vec es bs os) 0 = os := by
  induction bs generalizing es os with
  | nil =>
      cases os with
      | nil => simp [npSelect, npWhere]
      | cons o os => simp [countTrue] at hopt
  | cons b bs ih =>
      cases es with
      | nil => simp at hlen
      | cons e es =>
          cases b
          · have hopt' : os.length = countTrue bs := by simpa [countTrue] using hopt
            have h1 : calculate_full_param_vec (e :: es) (false :: bs) os
                = e :: calculate_full_param_vec es bs os := rfl
            rw [h1, npSelect_cons_false]
            exact ih es os (by simpa using hlen) hopt'
          · have hopt' : os.length = 1 + countTrue bs := by simpa [countTrue] using hopt
            cases os with
            | nil => simp only [List.length_nil] at hopt'; omega
            | cons o os =>
                have h1 : calculate_full_param_vec (e :: es) (true :: bs) (o :: os)
                    = o :: calculate_full_param_vec es bs os := rfl
                rw [h1, npSelect_cons_true]
                rw [ih es os (by simpa using hlen)
                  (by simp only [List.length_cons] at hopt'; omega)]

theorem calculate_full_param_vec_roundtrip (es : List ℚ) (bs : List Bool)
    (hlen : bs.length = es.length) :
    calculate_full_param_vec es bs (npSelect bs es 0) = es := by
  induction bs generalizing es with
  | nil =>
      cases es with
      | nil => rfl
      | cons e es => simp at hlen
  | cons b bs ih =>
      cases es with
      | nil => simp at hlen
      | cons e es =>
          simp only [List.length_cons] at hlen
          cases b
          · rw [npSelect_cons_false]
            have h1 : calculate_full_param_vec (e :: es) (false :: bs) (npSelect bs es 0)
                = e :: calculate_full_param_vec es bs (npSelect bs es 0) := rfl
            rw [h1, ih es (by omega)]
          · rw [npSelect_cons_true]
            have h1 : calculate_full_param_vec (e :: es) (true :: bs) (e :: npSelect bs es 0)
                = e :: calculate_full_param_vec es bs (npSelect bs es 0) := rfl
            rw [h1, ih es (by omega)]


-- ## list helpers

theorem getD_set_self (l : List α) (i : Nat) (a d : α) (h : i < l.length) :
    (l.set i a).getD i d = a := by
  induction l generalizing i with
  | nil => simp at h
  | cons x xs ih =>
      cases i with
      | zero => rfl
      | succ i => exact ih i (by simpa using h)

theorem getD_set_ne (l : List α) (i j : Nat) (a d : α) (h : i ≠ j) :
    (l.set i a).getD j d = l.getD j d := by
  induction l generalizing i j with
  | nil => rfl
  | cons x xs ih =>
      cases i with
      | zero => cases j with
        | zero => exact absurd rfl h
        | succ j => rfl
      | succ i => cases j with
        | zero => rfl
        | succ j => exact ih i j (by omega)

theorem set_set_same (l : List α) (i : Nat) (a b : α) :
    (l.set i a).set i b = l.set i b := by
  induction l generalizing i with
  | nil => rfl
  | cons x xs ih =>
      cases i with
      | zero => rfl
      | succ i => simpa [List.set] using ih i

theorem set_replicate_same (n i : Nat) (a : α) :
    (List.replicate n a).set i a = List.replicate n a := by
  induction n generalizing i with
  | zero => rfl
  | succ n ih =>
      cases i with
      | zero => rfl
      | succ i => simpa [List.replicate, List.set] using ih i

theorem getD_map_idx (v : List α) (d : α) (l : List Nat) (k : Nat) (hk : k < l.length) :
    ((l.map fun i => v.getD i d).getD k d) = v.getD (l.getD k 0) d := by
  induction l generalizing k with
  | nil => simp at hk
  | cons x xs ih =>
      cases k with
      | zero => rfl
      | succ k => exact ih k (by simpa using hk)

-- ## membership facts about `numpy.where`

theorem npWhere_cons_false (bs : List Bool) :
    npWhere (false :: bs) = (npWhere bs).map (· + 1) := by
  simp [npWhere]

theorem npWhere_cons_true (bs : List Bool) :
    npWhere (true :: bs) = 0 :: (npWhere bs).map (· + 1) := by
  simp [npWhere]

theorem npWhere_getD_true (l : List Bool) (i : Nat) (h : i ∈ npWhere l) :
    l.getD i false = true := by
  induction l generalizing i with
  | nil => simp [npWhere] at h
  | cons b bs ih =>
      cases b with
      | false =>
          rw [npWhere_cons_false] at h
          obtain ⟨j, hj, hji⟩ := List.mem_map.mp h
          subst hji
          simpa using ih j hj
      | true =>
          rw [npWhere_cons_true] at h
          rcases List.mem_cons.mp h with rfl | hmem
          · rfl
          · obtain ⟨j, hj, hji⟩ := List.mem_map.mp hmem
            subst hji
            simpa using ih j hj

theorem mem_npWhere_of_getD (l : List Bool) (i : Nat) (h : l.getD i false = true) :
    i ∈ npWhere l := by
  induction l generalizing i with
  | nil => simp [List.getD] at h
  | cons b bs ih =>
      cases i with
      | zero =>
          cases b with
          | false => simp at h
          | true => rw [npWhere_cons_true]; exact List.mem_cons_self _ _
      | succ i =>
          have hmem : i ∈ npWhere bs := ih i (by simpa using h)
          cases b with
          | false =>
              rw [npWhere_cons_false]
              exact List.mem_map.mpr ⟨i, hmem, rfl⟩
          | true =>
              rw [npWhere_cons_true]
              exact List.mem_cons_of_mem _ (List.mem_map.mpr ⟨i, hmem, rfl⟩)

theorem npWhere_nodup (l : List Bool) : (npWhere l).Nodup := by
  induction l with
  | nil => simp [npWhere]
  | cons b bs ih =>
      have hmap : ((npWhere bs).map (· + 1)).Nodup :=
        ih.map (fun a b h => by omega)
      cases b with
      | false => rw [npWhere_cons_false]; exact hmap
      | true =>
          rw [npWhere_cons_true]
          refine List.nodup_cons.mpr ⟨?_, hmap⟩
          intro hmem
          obtain ⟨j, _, hj⟩ := List.mem_map.mp hmem
          omega

-- ## the finite-difference loop

theorem fd_loop_getD_of_not_mem (f : List ℚ → List ℚ) (x0 f0 : List ℚ) (eps : ℚ)
    (idxs : List Nat) (i : Nat) (h : i ∉ idxs) :
    ∀ (dx : List ℚ) (Jt : List (List ℚ)),
      (fd_loop f x0 f0 eps idxs dx Jt).getD i [] = Jt.getD i [] := by
  induction idxs with
  | nil => intro dx Jt; rfl
  | cons j rest ih =>
      intro dx Jt
      have hji : j ≠ i := fun hji => h (hji ▸ List.mem_cons_self j rest)
      have hrest : i ∉ rest := fun hmem => h (List.mem_cons_of_mem j hmem)
      simp only [fd_loop]
      rw [ih hrest]
      exact getD_set_ne _ _ _ _ _ hji

theorem fd_loop_length (f : List ℚ → List ℚ) (x0 f0 : List ℚ) (eps : ℚ)
    (idxs : List Nat) :
    ∀ (dx : List ℚ) (Jt : List (List ℚ)),
      (fd_loop f x0 f0 eps idxs dx Jt).length = Jt.length := by
  induction idxs with
  | nil => intro dx Jt; rfl
  | cons j rest ih =>
      intro dx Jt
      simp only [fd_loop]
      rw [ih]
      exact List.length_set ..

theorem fd_loop_getD_of_mem (f : List ℚ → List ℚ) (x0 f0 : List ℚ) (eps : ℚ)
    (idxs : List Nat) (hnd : idxs.Nodup) (i : Nat) (hi : i ∈ idxs) :
    ∀ (Jt : List (List ℚ)), i < Jt.length →
      (fd_loop f x0 f0 eps idxs (List.replicate x0.length 0) Jt).getD i []
        = divVec (subVec (f (addVec x0 ((List.replicate x0.length 0).set i eps))) f0) eps := by
  induction idxs with
  | nil => cases hi
  | cons j rest ih =>
      intro Jt hJt
      have hrestore : (((List.replicate x0.length (0:ℚ)).set j eps).set j 0)
          = List.replicate x0.length 0 := by
        rw [set_set_same, set_replicate_same]
      rcases List.mem_cons.mp hi with rfl | hmem
      · have hnotrest : i ∉ rest := (List.nodup_cons.mp hnd).1
        simp only [fd_loop]
        rw [hrestore, fd_loop_getD_of_not_mem f x0 f0 eps rest i hnotrest]
        exact getD_set_self _ _ _ _ hJt
      · have hji : j ≠ i := by
          rintro rfl
          exact (List.nodup_cons.mp hnd).1 hmem
        simp only [fd_loop]
        rw [hrestore]
        exact ih (List.nodup_cons.mp hnd).2 hmem _ (by rw [List.length_set]; exact hJt)

-- ## block bookkeeping

theorem blockStart_zero (lens : List Nat) : blockStart lens 0 = 0 := rfl

theorem blockStart_succ (lens : List Nat) (i : Nat) :
    blockStart lens (i + 1) = blockStart lens i + lens.getD i 0 := by
  induction lens generalizing i with
  | nil => simp [blockStart, List.getD]
  | cons x xs ih =>
      cases i with
      | zero => simp [blockStart, List.getD]
      | succ i =>
          have h1 : blockStart (x :: xs) (i + 1 + 1) = x + blockStart xs (i + 1) := by
            simp [blockStart, List.take_succ_cons]
          have h2 : blockStart (x :: xs) (i + 1) = x + blockStart xs i := by
            simp [blockStart, List.take_succ_cons]
          rw [h1, h2, ih i, List.getD_cons_succ]
          omega

theorem blockStart_mono (lens : List Nat) (i j : Nat) (h : i ≤ j) :
    blockStart lens i ≤ blockStart lens j := by
  induction j with
  | zero => simpa [Nat.le_zero.mp h]
  | succ j ih =>
      rcases Nat.lt_or_ge i (j + 1) with h' | h'
      · calc blockStart lens i ≤ blockStart lens j := ih (by omega)
          _ ≤ _ := by rw [blockStart_succ]; omega
      · have : i = j + 1 := by omega
        exact this ▸ Nat.le_refl _

theorem blockStart_le_sum (lens : List Nat) (i : Nat) : blockStart lens i ≤ lens.sum := by
  conv_rhs => rw [← List.take_append_drop i lens]
  rw [List.sum_append]
  exact Nat.le_add_right _ _

theorem blockStart_disjoint (lens : List Nat) (g j r : Nat) (hgj : g ≠ j)
    (h1 : blockStart lens g ≤ r) (h2 : r < blockStart lens g + lens.getD g 0)
    (h3 : blockStart lens j ≤ r) (h4 : r < blockStart lens j + lens.getD j 0) : False := by
  rcases Nat.lt_or_ge g j with h | h
  · have hle : blockStart lens (g + 1) ≤ blockStart lens j := blockStart_mono lens _ _ h
    rw [blockStart_succ] at hle
    omega
  · have hlt : g ≠ j := hgj
    have h' : j < g := by omega
    have hle : blockStart lens (j + 1) ≤ blockStart lens g := blockStart_mono lens _ _ h'
    rw [blockStart_succ] at hle
    omega

-- ## pose-row chunks

theorem chunk6_cons6 (x1 x2 x3 x4 x5 x6 : ℚ) (rest : List ℚ) :
    chunk6 (x1 :: x2 :: x3 :: x4 :: x5 :: x6 :: rest)
      = [x1, x2, x3, x4, x5, x6] :: chunk6 rest := rfl

theorem chunk6_length (n : Nat) : ∀ l : List ℚ, l.length = 6 * n → (chunk6 l).length = n := by
  induction n with
  | zero =>
      intro l h
      simp only [Nat.mul_zero] at h
      rw [List.length_eq_zero.mp h]
      rfl
  | succ n ih =>
      intro l h
      rcases l with _ | ⟨x1, l⟩
      · simp only [List.length_nil] at h; omega
      rcases l with _ | ⟨x2, l⟩
      · simp only [List.length_cons, List.length_nil] at h; omega
      rcases l with _ | ⟨x3, l⟩
      · simp only [List.length_cons, List.length_nil] at h; omega
      rcases l with _ | ⟨x4, l⟩
      · simp only [List.length_cons, List.length_nil] at h; omega
      rcases l with _ | ⟨x5, l⟩
      · simp only [List.length_cons, List.length_nil] at h; omega
      rcases l with _ | ⟨x6, l⟩
      · simp only [List.length_cons, List.length_nil] at h; omega
      rw [chunk6_cons6, List.length_cons,
        ih l (by simp only [List.length_cons] at h; omega)]

-- ## block-entry facts

theorem setBlock_notin (M : Mat) (r0 c0 nr nc : Nat) (B : Mat) (r c : Nat)
    (h : ¬(r0 ≤ r ∧ r < r0 + nr ∧ c0 ≤ c ∧ c < c0 + nc)) :
    setBlock M r0 c0 nr nc B r c = M r c := if_neg h

theorem setBlock_in (M : Mat) (r0 c0 nr nc : Nat) (B : Mat) (r c : Nat)
    (h : r0 ≤ r ∧ r < r0 + nr ∧ c0 ≤ c ∧ c < c0 + nc) :
    setBlock M r0 c0 nr nc B r c = B (r - r0) (c - c0) := if_pos h

theorem drop_cons_getD (l : List α) (i : Nat) (x : α) (xs : List α) (d : α)
    (h : l.drop i = x :: xs) : l.getD i d = x := by
  induction l generalizing i with
  | nil => simp at h
  | cons a as ih =>
      cases i with
      | zero => simpa using congrArg (fun t => List.getD t 0 d) h
      | succ i => exact ih i (by simpa using h)

theorem drop_cons_drop (l : List α) (i : Nat) (x : α) (xs : List α)
    (h : l.drop i = x :: xs) : l.drop (i + 1) = xs := by
  induction l generalizing i with
  | nil => simp at h
  | cons a as ih =>
      cases i with
      | zero => simpa using congrArg List.tail h
      | succ i => exact ih i (by simpa using h)

theorem drop_cons_lt (l : List α) (i : Nat) (x : α) (xs : List α)
    (h : l.drop i = x :: xs) : i < l.length := by
  have hlen := congrArg List.length h
  rw [List.length_drop] at hlen
  simp only [List.length_cons] at hlen
  omega

theorem getD_map_res (l : List Sensor) (k : Nat) (hk : k < l.length) :
    (l.map Sensor.get_residual_length).getD k 0
      = (l.getD k default).get_residual_length := by
  induction l generalizing k with
  | nil => simp at hk
  | cons x xs ih =>
      cases k with
      | zero => rfl
      | succ k => exact ih k (by simpa using hk)

theorem getD_map_msres (l : List MultiSensor) (k : Nat) (hk : k < l.length) :
    (l.map MultiSensor.get_residual_length).getD k 0
      = (l.getD k default).get_residual_length := by
  induction l generalizing k with
  | nil => simp at hk
  | cons x xs ih =>
      cases k with
      | zero => rfl
      | succ k => exact ih k (by simpa using hk)

-- ## entry characterization of the Jacobian assembly loops

theorem sensorLoop_preserve (ec : ErrorCalc) (opt : List ℚ) (tpT : Points → Points)
    (cb : String) (msRow : Nat) (sensors : List Sensor) (r c : Nat) :
    ∀ (sl : List Sensor) (k : Nat) (J : Mat), sl = sensors.drop k →
      ¬ (msRow + blockStart (sensors.map Sensor.get_residual_length) k ≤ r ∧
         r < msRow + (sensors.map Sensor.get_residual_length).sum ∧
         c < opt.length) →
      sensorLoop ec opt tpT cb msRow (sensors.map Sensor.get_residual_length) k sl J r c
        = J r c := by
  intro sl
  induction sl with
  | nil => intro k J _ _; rfl
  | cons s rest ih =>
      intro k J hdrop hout
      have hk : k < sensors.length := drop_cons_lt _ _ _ _ hdrop.symm
      have hs : sensors.getD k default = s := drop_cons_getD _ _ _ _ _ hdrop.symm
      have hdrop' : rest = sensors.drop (k + 1) := (drop_cons_drop _ _ _ _ hdrop.symm).symm
      have hlen : (sensors.map Sensor.get_residual_length).getD k 0 = s.get_residual_length := by
        rw [getD_map_res sensors k hk, hs]
      have hsucc := blockStart_succ (sensors.map Sensor.get_residual_length) k
      have hle := blockStart_le_sum (sensors.map Sensor.get_residual_length) (k + 1)
      have hmono := blockStart_mono (sensors.map Sensor.get_residual_length) k (k + 1)
        (Nat.le_succ k)
      have hout' : ¬ (msRow + blockStart (sensors.map Sensor.get_residual_length) (k + 1) ≤ r ∧
          r < msRow + (sensors.map Sensor.get_residual_length).sum ∧
          c < opt.length) := by
        rintro ⟨h1, h2, h3⟩
        exact hout ⟨by omega, h2, h3⟩
      simp only [sensorLoop]
      rw [ih (k + 1) _ hdrop' hout']
      exact setBlock_notin _ _ _ _ _ _ _ _ (by
        rintro ⟨hc1, hc2, _, hc4⟩
        refine hout ⟨hc1, ?_, by omega⟩
        omega)

theorem sensorLoop_at (ec : ErrorCalc) (opt : List ℚ) (tpT : Points → Points)
    (cb : String) (msRow : Nat) (sensors : List Sensor) (r c : Nat) (k0 : Nat)
    (hk0 : k0 < sensors.length)
    (hr1 : msRow + blockStart (sensors.map Sensor.get_residual_length) k0 ≤ r)
    (hr2 : r < msRow + blockStart (sensors.map Sensor.get_residual_length) k0
      + (sensors.getD k0 default).get_residual_length)
    (hc : c < opt.length) :
    ∀ (sl : List Sensor) (k : Nat) (J : Mat), sl = sensors.drop k → k ≤ k0 →
      sensorLoop ec opt tpT cb msRow (sensors.map Sensor.get_residual_length) k sl J r c
        = ec.single_sensor_params_jacobian opt tpT cb (sensors.getD k0 default)
            (r - (msRow + blockStart (sensors.map Sensor.get_residual_length) k0)) c := by
  intro sl
  induction sl with
  | nil =>
      intro k J hdrop hk
      exfalso
      have hlen := congrArg List.length hdrop
      rw [List.length_drop] at hlen
      simp only [List.length_nil] at hlen
      omega
  | cons s rest ih =>
      intro k J hdrop hk
      have hklt : k < sensors.length := drop_cons_lt _ _ _ _ hdrop.symm
      have hs : sensors.getD k default = s := drop_cons_getD _ _ _ _ _ hdrop.symm
      have hdrop' : rest = sensors.drop (k + 1) := (drop_cons_drop _ _ _ _ hdrop.symm).symm
      have hlen : (sensors.map Sensor.get_residual_length).getD k 0 = s.get_residual_length := by
        rw [getD_map_res sensors k hklt, hs]
      have hsucc := blockStart_succ (sensors.map Sensor.get_residual_length) k
      rcases Nat.eq_or_lt_of_le hk with rfl | hklt0
      · -- this is the sensor whose block covers (r, c)
        have hcov : msRow + blockStart (sensors.map Sensor.get_residual_length) k ≤ r ∧
            r < msRow + blockStart (sensors.map Sensor.get_residual_length) k
              + s.get_residual_length ∧
            0 ≤ c ∧ c < 0 + opt.length := by
          refine ⟨hr1, ?_, Nat.zero_le c, by omega⟩
          rw [← hs]; omega
        simp only [sensorLoop]
        rw [sensorLoop_preserve ec opt tpT cb msRow sensors r c rest (k + 1) _ hdrop'
          (by rintro ⟨h1, _, _⟩; omega)]
        rw [setBlock_in _ _ _ _ _ _ _ _ hcov, hs, Nat.sub_zero]
      · -- a sensor strictly before k0: its block ends at or before row `blockStart k0`
        have hmono : blockStart (sensors.map Sensor.get_residual_length) (k + 1)
            ≤ blockStart (sensors.map Sensor.get_residual_length) k0 :=
          blockStart_mono _ _ _ hklt0
        simp only [sensorLoop]
        rw [ih (k + 1) _ hdrop' hklt0]

theorem groupLoop_preserve (ec : ErrorCalc) (tp : List ℚ → Points → Points)
    (opt : List ℚ) (fpa : List (List ℚ)) (r c : Nat) :
    ∀ (msl : List MultiSensor) (i : Nat) (J : Mat), msl = ec.multisensors.drop i →
      (∀ g, i ≤ g → g < ec.multisensors.length →
        ¬ (blockStart (ec.multisensors.map MultiSensor.get_residual_length) g ≤ r ∧
           r < blockStart (ec.multisensors.map MultiSensor.get_residual_length) g
             + (ec.multisensors.map MultiSensor.get_residual_length).getD g 0 ∧
           (c < opt.length ∨ (opt.length + 6 * g ≤ c ∧ c < opt.length + 6 * g + 6)))) →
      groupLoop ec tp opt fpa (ec.multisensors.map MultiSensor.get_residual_length) i msl J r c
        = J r c := by
  intro msl
  induction msl with
  | nil => intro i J _ _; rfl
  | cons ms rest ih =>
      intro i J hdrop hout
      have hi : i < ec.multisensors.length := drop_cons_lt _ _ _ _ hdrop.symm
      have hms : ec.multisensors.getD i default = ms := drop_cons_getD _ _ _ _ _ hdrop.symm
      have hdrop' : rest = ec.multisensors.drop (i + 1) := (drop_cons_drop _ _ _ _ hdrop.symm).symm
      have hlen : (ec.multisensors.map MultiSensor.get_residual_length).getD i 0
          = ms.get_residual_length := by
        rw [getD_map_msres ec.multisensors i hi, hms]
      have hnotouch := hout i (Nat.le_refl i) hi
      simp only [groupLoop]
      rw [ih (i + 1) _ hdrop' (fun g hg hglen => hout g (by omega) hglen)]
      rw [setBlock_notin _ _ _ _ _ _ _ _ (by
        rintro ⟨h1, h2, h3, h4⟩
        exact hnotouch ⟨h1, by omega, Or.inr ⟨h3, by omega⟩⟩)]
      rw [sensorLoop_preserve ec opt (tp (fpa.getD i [])) ms.checkerboard
        (blockStart (ec.multisensors.map MultiSensor.get_residual_length) i)
        ms.sensors r c ms.sensors 0 J rfl (by
          rintro ⟨h1, h2, h3⟩
          refine hnotouch ⟨by simpa [blockStart] using h1, ?_, Or.inl h3⟩
          have hsum : (ms.sensors.map Sensor.get_residual_length).sum
              = ms.get_residual_length := rfl
          omega)]

theorem groupLoop_at (ec : ErrorCalc) (tp : List ℚ → Points → Points)
    (opt : List ℚ) (fpa : List (List ℚ)) (r c : Nat) (i0 k0 : Nat)
    (hi0 : i0 < ec.multisensors.length)
    (hk0 : k0 < (ec.multisensors.getD i0 default).sensors.length)
    (hr1 : blockStart (ec.multisensors.map MultiSensor.get_residual_length) i0
      + blockStart ((ec.multisensors.getD i0 default).sensors.map Sensor.get_residual_length) k0
      ≤ r)
    (hr2 : r < blockStart (ec.multisensors.map MultiSensor.get_residual_length) i0
      + blockStart ((ec.multisensors.getD i0 default).sensors.map Sensor.get_residual_length) k0
      + ((ec.multisensors.getD i0 default).sensors.getD k0 default).get_residual_length)
    (hc : c < opt.length) :
    ∀ (msl : List MultiSensor) (i : Nat) (J : Mat), msl = ec.multisensors.drop i → i ≤ i0 →
      groupLoop ec tp opt fpa (ec.multisensors.map MultiSensor.get_residual_length) i msl J r c
        = ec.single_sensor_params_jacobian opt (tp (fpa.getD i0 []))
            (ec.multisensors.getD i0 default).checkerboard
            ((ec.multisensors.getD i0 default).sensors.getD k0 default)
            (r - (blockStart (ec.multisensors.map MultiSensor.get_residual_length) i0
              + blockStart
                ((ec.multisensors.getD i0 default).sensors.map Sensor.get_residual_length) k0))
            c := by
  intro msl
  induction msl with
  | nil =>
      intro i J hdrop hi
      exfalso
      have hlen := congrArg List.length hdrop
      rw [List.length_drop] at hlen
      simp only [List.length_nil] at hlen
      omega
  | cons ms rest ih =>
      intro i J hdrop hi
      have hilt : i < ec.multisensors.length := drop_cons_lt _ _ _ _ hdrop.symm
      have hms : ec.multisensors.getD i default = ms := drop_cons_getD _ _ _ _ _ hdrop.symm
      have hdrop' : rest = ec.multisensors.drop (i + 1) := (drop_cons_drop _ _ _ _ hdrop.symm).symm
      have hleni : (ec.multisensors.map MultiSensor.get_residual_length).getD i 0
          = ms.get_residual_length := by
        rw [getD_map_msres ec.multisensors i hilt, hms]
      have hsucci := blockStart_succ (ec.multisensors.map MultiSensor.get_residual_length) i
      rcases Nat.eq_or_lt_of_le hi with rfl | hilt0
      · -- the group that owns row r
        have hk0len : (((ec.multisensors.getD i default).sensors.map
            Sensor.get_residual_length)).getD k0 0
            = ((ec.multisensors.getD i default).sensors.getD k0 default).get_residual_length :=
          getD_map_res _ k0 hk0
        have hsucck := blockStart_succ
          ((ec.multisensors.getD i default).sensors.map Sensor.get_residual_length) k0
        have hlek := blockStart_le_sum
          ((ec.multisensors.getD i default).sensors.map Sensor.get_residual_length) (k0 + 1)
        have hsum : ((ec.multisensors.getD i default).sensors.map Sensor.get_residual_length).sum
            = (ec.multisensors.getD i default).get_residual_length := rfl
        have hmsl : (ec.multisensors.getD i default).get_residual_length
            = ms.get_residual_length := by rw [hms]
        have hrlt : r < blockStart (ec.multisensors.map MultiSensor.get_residual_length) (i + 1) := by
          omega
        simp only [groupLoop]
        rw [groupLoop_preserve ec tp opt fpa r c rest (i + 1) _ hdrop' (fun g hg hglen => by
          have hmono := blockStart_mono (ec.multisensors.map MultiSensor.get_residual_length)
            (i + 1) g hg
          rintro ⟨h1, _, _⟩
          omega)]
        rw [setBlock_notin _ _ _ _ _ _ _ _ (by rintro ⟨_, _, h3, _⟩; omega)]
        rw [← hms]
        exact sensorLoop_at ec opt (tp (fpa.getD i []))
          (ec.multisensors.getD i default).checkerboard
          (blockStart (ec.multisensors.map MultiSensor.get_residual_length) i)
          (ec.multisensors.getD i default).sensors r c k0 hk0 hr1 hr2 hc
          (ec.multisensors.getD i default).sensors 0 J rfl (Nat.zero_le k0)
      · -- a group strictly before i0: all its rows end before row r
        have hmono : blockStart (ec.multisensors.map MultiSensor.get_residual_length) (i + 1)
            ≤ blockStart (ec.multisensors.map MultiSensor.get_residual_length) i0 :=
          blockStart_mono _ _ _ hilt0
        have hrge : blockStart (ec.multisensors.map MultiSensor.get_residual_length) (i + 1) ≤ r := by
          omega
        simp only [groupLoop]
        rw [ih (i + 1) _ hdrop' hilt0]

theorem getD_replicate (n c : Nat) (x d : α) :
    (List.replicate n x).getD c d = if c < n then x else d := by
  induction n generalizing c with
  | zero => simp [List.getD]
  | succ n ih =>
      cases c with
      | zero => simp [List.replicate]
      | succ c => simpa [List.replicate] using ih c

theorem getD_true_lt (l : List Bool) (i : Nat) (h : l.getD i false = true) : i < l.length := by
  by_contra hge
  rw [List.getD_eq_default] at h
  · exact Bool.false_ne_true h
  · omega

theorem split_all_eval (free_list : List Bool) (v : List ℚ)
    (h : (v.drop (countTrue free_list)).length % 6 = 0) :
    split_all free_list v
      = some (v.take (countTrue free_list), chunk6 (v.drop (countTrue free_list))) := by
  rw [List.length_drop] at h
  simp [split_all, h]

theorem split_all_fail (free_list : List Bool) (v : List ℚ)
    (h : (v.drop (countTrue free_list)).length % 6 ≠ 0) :
    split_all free_list v = none := by
  rw [List.length_drop] at h
  simp [split_all, h]

theorem calculate_jacobian_eval (ec : ErrorCalc) (tp : List ℚ → Points → Points) (v : List ℚ)
    (hv : v.length = countTrue ec.free_list + 6 * ec.multisensors.length) :
    ec.calculate_jacobian tp v = some
      ((ec.multisensors.map MultiSensor.get_residual_length).sum, v.length,
        groupLoop ec tp (v.take (countTrue ec.free_list))
          (chunk6 (v.drop (countTrue ec.free_list)))
          (ec.multisensors.map MultiSensor.get_residual_length) 0 ec.multisensors
          (fun _ _ => 0)) := by
  have hdlen : (v.drop (countTrue ec.free_list)).length = 6 * ec.multisensors.length := by
    rw [List.length_drop]; omega
  have hmod : (v.drop (countTrue ec.free_list)).length % 6 = 0 := by
    rw [hdlen]; exact Nat.mul_mod_right 6 _
  have htake : (v.take (countTrue ec.free_list)).length = countTrue ec.free_list := by
    rw [List.length_take]; omega
  have hchunk : (chunk6 (v.drop (countTrue ec.free_list))).length = ec.multisensors.length :=
    chunk6_length _ _ hdlen
  unfold ErrorCalc.calculate_jacobian
  rw [split_all_eval _ _ hmod]
  simp only [htake, hchunk, le_refl, and_self, if_true]

theorem jacShape_eval (ec : ErrorCalc) (tp : List ℚ → Points → Points) (v : List ℚ)
    (hv : v.length = countTrue ec.free_list + 6 * ec.multisensors.length) :
    jacShape ec tp v
      = some ((ec.multisensors.map MultiSensor.get_residual_length).sum, v.length) := by
  rw [jacShape, calculate_jacobian_eval ec tp v hv]
  rfl

theorem jacEntry_eval (ec : ErrorCalc) (tp : List ℚ → Points → Points) (v : List ℚ)
    (hv : v.length = countTrue ec.free_list + 6 * ec.multisensors.length) (r c : Nat) :
    jacEntry ec tp v r c
      = groupLoop ec tp (v.take (countTrue ec.free_list))
          (chunk6 (v.drop (countTrue ec.free_list)))
          (ec.multisensors.map MultiSensor.get_residual_length) 0 ec.multisensors
          (fun _ _ => 0) r c := by
  rw [jacEntry, calculate_jacobian_eval ec tp v hv]

theorem single_sensor_params_jacobian_unflagged (ec : ErrorCalc) (opt : List ℚ)
    (tpT : Points → Points) (tid : String) (s : Sensor) (c : Nat)
    (hflag : (ec.sensorOptSparsity s).getD c false = false) :
    ∀ r, ec.single_sensor_params_jacobian opt tpT tid s r c = 0 := by
  intro r
  have hnot : c ∉ npWhere (ec.sensorOptSparsity s) := by
    intro hmem
    rw [npWhere_getD_true _ _ hmem] at hflag
    exact Bool.noConfusion hflag
  simp only [ErrorCalc.single_sensor_params_jacobian, transposeMat, rowsToMat]
  rw [fd_loop_getD_of_not_mem _ _ _ _ _ _ hnot]
  rw [getD_replicate]
  rcases Nat.lt_or_ge c opt.length with h | h
  · rw [if_pos h, getD_replicate]
    split <;> rfl
  · rw [if_neg (by omega)]
    rfl

theorem calc_free_segment (rp : RobotParamsModel) (d : ParamCategory → CatDict)
    (cat : ParamCategory) (off : Nat) (hoff : off < rp.catLen cat) :
    (rp.calc_free d).getD (rp.catStart cat + off) false
      = (rp.catFree cat (d cat)).getD off false := by
  have hflat : rp.calc_free d
      = rp.catFree .dh_chains (d .dh_chains) ++
        (rp.catFree .tilting_lasers (d .tilting_lasers) ++
          (rp.catFree .transforms (d .transforms) ++
            (rp.catFree .rectified_cams (d .rectified_cams) ++
              rp.catFree .checkerboards (d .checkerboards)))) := by
    simp [RobotParamsModel.calc_free, required_keys]
  have l0 := rp.catFree_len .dh_chains (d .dh_chains)
  have l1 := rp.catFree_len .tilting_lasers (d .tilting_lasers)
  have l2 := rp.catFree_len .transforms (d .transforms)
  have l3 := rp.catFree_len .rectified_cams (d .rectified_cams)
  cases cat with
  | dh_chains =>
      rw [hflat, RobotParamsModel.catStart, Nat.zero_add]
      rw [List.getD_append _ _ _ _ (by omega)]
  | tilting_lasers =>
      rw [hflat, RobotParamsModel.catStart]
      rw [List.getD_append_right _ _ _ _ (by omega)]
      rw [List.getD_append _ _ _ _ (by omega)]
      congr 1
      omega
  | transforms =>
      rw [hflat, RobotParamsModel.catStart]
      rw [List.getD_append_right _ _ _ _ (by omega)]
      rw [List.getD_append_right _ _ _ _ (by omega)]
      rw [List.getD_append _ _ _ _ (by omega)]
      congr 1
      omega
  | rectified_cams =>
      rw [hflat, RobotParamsModel.catStart]
      rw [List.getD_append_right _ _ _ _ (by omega)]
      rw [List.getD_append_right _ _ _ _ (by omega)]
      rw [List.getD_append_right _ _ _ _ (by omega)]
      rw [List.getD_append _ _ _ _ (by omega)]
      congr 1
      omega
  | checkerboards =>
      rw [hflat, RobotParamsModel.catStart]
      rw [List.getD_append_right _ _ _ _ (by omega)]
      rw [List.getD_append_right _ _ _ _ (by omega)]
      rw [List.getD_append_right _ _ _ _ (by omega)]
      rw [List.getD_append_right _ _ _ _ (by omega)]
      congr 1
      omega

theorem ms_residual_length (ms : MultiSensor) (st : List ℚ) (pts : Points)
    (hcon : ∀ s ∈ ms.sensors, ∀ st' pts', (s.residual_fn st' pts').length = s.residual_length) :
    (ms.compute_residual st pts).length = ms.get_residual_length := by
  unfold MultiSensor.compute_residual MultiSensor.get_residual_length
  rw [List.length_flatten, List.map_map]
  congr 1
  apply List.map_congr_left
  intro s hs
  exact hcon s hs st pts

theorem resid_len_aux (rp : RobotParamsModel) (full : List ℚ) (tp : List ℚ → Points → Points) :
    ∀ (mss : List MultiSensor) (blocks : List (List ℚ)),
      mss.length = blocks.length →
      (∀ ms ∈ mss, ∀ s ∈ ms.sensors, ∀ st pts,
        (s.residual_fn st pts).length = s.residual_length) →
      ((mss.zip blocks).map (fun p =>
        p.1.compute_residual full (tp p.2 (rp.checkerboards p.1.checkerboard full)))).flatten.length
        = (mss.map MultiSensor.get_residual_length).sum := by
  intro mss
  induction mss with
  | nil => intro blocks _ _; rfl
  | cons ms rest ih =>
      intro blocks hlen hcon
      cases blocks with
      | nil => simp at hlen
      | cons b bs =>
          simp only [List.zip_cons_cons, List.map_cons, List.flatten_cons, List.length_append,
            List.sum_cons]
          rw [ih bs (by simpa using hlen)
            (fun ms' hm => hcon ms' (List.mem_cons_of_mem _ hm))]
          rw [ms_residual_length ms full _ (hcon ms (List.mem_cons_self _ _))]

theorem chunk6_ne_nil (l : List ℚ) (h : l ≠ []) : chunk6 l ≠ [] := by
  rcases l with _ | ⟨x1, l⟩
  · exact absurd rfl h
  rcases l with _ | ⟨x2, l⟩
  · simp [show chunk6 [x1] = [[x1]] from rfl]
  rcases l with _ | ⟨x3, l⟩
  · simp [show chunk6 [x1, x2] = [[x1, x2]] from rfl]
  rcases l with _ | ⟨x4, l⟩
  · simp [show chunk6 [x1, x2, x3] = [[x1, x2, x3]] from rfl]
  rcases l with _ | ⟨x5, l⟩
  · simp [show chunk6 [x1, x2, x3, x4] = [[x1, x2, x3, x4]] from rfl]
  rcases l with _ | ⟨x6, l⟩
  · simp [show chunk6 [x1, x2, x3, x4, x5] = [[x1, x2, x3, x4, x5]] from rfl]
  rw [chunk6_cons6]
  simp

theorem map_zip_isEmpty_false (l1 : List α) (l2 : List β) (f : α × β → γ)
    (h1 : l1 ≠ []) (h2 : l2 ≠ []) : ((l1.zip l2).map f).isEmpty = false := by
  cases l1 with
  | nil => exact absurd rfl h1
  | cons a as =>
      cases l2 with
      | nil => exact absurd rfl h2
      | cons b bs => rfl

theorem calculate_error_eval (ec : ErrorCalc) (tp : List ℚ → Points → Points) (v : List ℚ)
    (hmod : (v.drop (countTrue ec.free_list)).length % 6 = 0)
    (hge : countTrue ec.free_list ≤ v.length)
    (hms : ec.multisensors ≠ [])
    (hdr : v.drop (countTrue ec.free_list) ≠ []) :
    ec.calculate_error tp v = (some (residualSpec ec tp v),
      ⟨ec.rp_model,
       calculate_full_param_vec ec.expanded_params ec.free_list
         (v.take (countTrue ec.free_list)),
       ec.expanded_params, ec.free_list, ec.multisensors⟩) := by
  have htake : (v.take (countTrue ec.free_list)).length = countTrue ec.free_list := by
    rw [List.length_take]; omega
  have hchunk : chunk6 (v.drop (countTrue ec.free_list)) ≠ [] := chunk6_ne_nil _ hdr
  unfold ErrorCalc.calculate_error
  rw [split_all_eval _ _ hmod]
  simp only [htake, eq_self_iff_true, true_or, if_true, residualSpec]
  rw [if_neg (by simp [map_zip_isEmpty_false _ _ _ hms hchunk])]

theorem calculate_error_fail_mod (ec : ErrorCalc) (tp : List ℚ → Points → Points) (v : List ℚ)
    (hmod : (v.drop (countTrue ec.free_list)).length % 6 ≠ 0) :
    ec.calculate_error tp v = (none, ec) := by
  unfold ErrorCalc.calculate_error
  rw [split_all_fail _ _ hmod]

theorem calculate_error_fst_state_blind (rp : RobotParamsModel) (st1 st2 exp : List ℚ)
    (fl : List Bool) (mss : List MultiSensor) (tp : List ℚ → Points → Points)
    (v : List ℚ) :
    ((⟨rp, st1, exp, fl, mss⟩ : ErrorCalc).calculate_error tp v).1
      = ((⟨rp, st2, exp, fl, mss⟩ : ErrorCalc).calculate_error tp v).1 := by
  simp only [ErrorCalc.calculate_error]
  cases h : split_all fl v with
  | none => rfl
  | some p =>
      cases p with
      | mk a b =>
          dsimp only
          split_ifs <;> rfl

theorem calculate_error_snd_fields (ec : ErrorCalc) (tp : List ℚ → Points → Points)
    (v : List ℚ) :
    (ec.calculate_error tp v).2.rp_model = ec.rp_model ∧
    (ec.calculate_error tp v).2.expanded_params = ec.expanded_params ∧
    (ec.calculate_error tp v).2.free_list = ec.free_list ∧
    (ec.calculate_error tp v).2.multisensors = ec.multisensors := by
  unfold ErrorCalc.calculate_error
  cases h : split_all ec.free_list v with
  | none => exact ⟨rfl, rfl, rfl, rfl⟩
  | some p =>
      cases p with
      | mk a b =>
          dsimp only
          split_ifs <;> exact ⟨rfl, rfl, rfl, rfl⟩

theorem calculate_error_fst_congr (e1 e2 : ErrorCalc) (tp : List ℚ → Points → Points)
    (v : List ℚ) (h1 : e1.rp_model = e2.rp_model)
    (h2 : e1.expanded_params = e2.expanded_params)
    (h3 : e1.free_list = e2.free_list) (h4 : e1.multisensors = e2.multisensors) :
    (e1.calculate_error tp v).1 = (e2.calculate_error tp v).1 := by
  cases e1 with
  | mk a1 b1 c1 d1 m1 =>
      cases e2 with
      | mk a2 b2 c2 d2 m2 =>
          have h1' : a1 = a2 := h1
          have h2' : c1 = c2 := h2
          have h3' : d1 = d2 := h3
          have h4' : m1 = m2 := h4
          subst h1'
          subst h2'
          subst h3'
          subst h4'
          exact calculate_error_fst_state_blind a1 b1 b2 c1 d1 m1 tp v

-- ## the claims

/-- C1: for every cached baseline, free mask of matching length, and
optimization subset whose length equals the number of `true` flags,
`calculate_full_param_vec` returns a full-length vector equal to the baseline
at every non-free position and equal to the supplied subset, in order, at the
free positions (reading the result back at the free positions returns the
subset); the function is pure over its cached baseline, and splitting the
baseline along the free mask and expanding is the identity. -/
theorem C1_full_param_expansion (expanded : List ℚ) (free : List Bool) (opt : List ℚ)
    (hlen : free.length = expanded.length) (hopt : opt.length = countTrue free) :
    (calculate_full_param_vec expanded free opt).length = expanded.length ∧
    (∀ idx, free.getD idx false = false →
      (calculate_full_param_vec expanded free opt).getD idx 0 = expanded.getD idx 0) ∧
    npSelect free (calculate_full_param_vec expanded free opt) 0 = opt ∧
    calculate_full_param_vec expanded free (npSelect free expanded 0) = expanded :=
  ⟨calculate_full_param_vec_length _ _ _,
   fun idx h => calculate_full_param_vec_not_free _ _ _ idx h,
   calculate_full_param_vec_select _ _ _ hlen hopt,
   calculate_full_param_vec_roundtrip _ _ hlen⟩

theorem C1_witness :
    (calculate_full_param_vec [1, 2, 3] [true, false, true] [10, 20]).getD 1 0 = 2 ∧
    npSelect [true, false, true]
      (calculate_full_param_vec [1, 2, 3] [true, false, true] [10, 20]) 0 = [10, 20] ∧
    calculate_full_param_vec [1, 2, 3] [true, false, true]
      (npSelect [true, false, true] [1, 2, 3] 0) = [1, 2, 3] :=
  ⟨(C1_full_param_expansion [1, 2, 3] [true, false, true] [10, 20]
      (by decide) (by decide)).2.1 1 (by decide),
   (C1_full_param_expansion [1, 2, 3] [true, false, true] [10, 20]
      (by decide) (by decide)).2.2.1,
   (C1_full_param_expansion [1, 2, 3] [true, false, true] [10, 20]
      (by decide) (by decide)).2.2.2⟩

/-- C2: for a well-formed optimization vector, the Jacobian of
`calculate_jacobian` is exactly zero at group `j`'s rows within group `i`'s
6-column pose block whenever `i ≠ j`, and within group `i`'s rows every
column outside the free-parameter columns `[0, numFreeParams)` and outside
group `i`'s own pose block is exactly zero. -/
theorem C2_jacobian_block_structure (ec : ErrorCalc) (tp : List ℚ → Points → Points)
    (v : List ℚ) (hv : v.length = countTrue ec.free_list + 6 * ec.multisensors.length)
    (i j r c : Nat) (hi : i < ec.multisensors.length) (hj : j < ec.multisensors.length)
    (hij : i ≠ j) :
    (ec.groupRowStart j ≤ r → r < ec.groupRowStart j + ec.groupLen j →
      ec.poseColStart i ≤ c → c < ec.poseColStart i + 6 → jacEntry ec tp v r c = 0) ∧
    (ec.groupRowStart i ≤ r → r < ec.groupRowStart i + ec.groupLen i →
      countTrue ec.free_list ≤ c →
      ¬ (ec.poseColStart i ≤ c ∧ c < ec.poseColStart i + 6) →
      jacEntry ec tp v r c = 0) := by
  have htake : (v.take (countTrue ec.free_list)).length = countTrue ec.free_list := by
    rw [List.length_take]; omega
  constructor
  · intro h1 h2 h3 h4
    simp only [ErrorCalc.groupRowStart, ErrorCalc.groupLen, ErrorCalc.poseColStart]
      at h1 h2 h3 h4
    rw [jacEntry_eval ec tp v hv]
    apply groupLoop_preserve ec tp _ _ r c ec.multisensors 0 _ rfl
    intro g hg hglen
    rintro ⟨hg1, hg2, hg3⟩
    have hgj : g = j := by
      by_contra hne
      exact blockStart_disjoint _ g j r hne hg1 hg2 h1 h2
    subst hgj
    rcases hg3 with hcl | ⟨hcp1, hcp2⟩
    · rw [htake] at hcl; omega
    · rw [htake] at hcp1 hcp2; omega
  · intro h1 h2 h3 h4
    simp only [ErrorCalc.groupRowStart, ErrorCalc.groupLen, ErrorCalc.poseColStart]
      at h1 h2 h3 h4
    rw [jacEntry_eval ec tp v hv]
    apply groupLoop_preserve ec tp _ _ r c ec.multisensors 0 _ rfl
    intro g hg hglen
    rintro ⟨hg1, hg2, hg3⟩
    have hgi : g = i := by
      by_contra hne
      exact blockStart_disjoint _ g i r hne hg1 hg2 h1 h2
    subst hgi
    rcases hg3 with hcl | ⟨hcp1, hcp2⟩
    · rw [htake] at hcl; omega
    · rw [htake] at hcp1 hcp2
      exact h4 ⟨by omega, by omega⟩

theorem C2_witness :
    jacEntry ecPair tpId vPair 2 0 = 0 ∧ jacEntry ecPair tpId vPair 0 6 = 0 :=
  ⟨(C2_jacobian_block_structure ecPair tpId vPair (by decide) 0 1 2 0
      (by decide) (by decide) (by decide)).1
      (by decide) (by decide) (by decide) (by decide),
   (C2_jacobian_block_structure ecPair tpId vPair (by decide) 0 1 0 6
      (by decide) (by decide) (by decide)).2
      (by decide) (by decide) (by decide) (by decide)⟩

/-- C3: in the parameter block of the Jacobian, within the row sub-range of
sensor `k` of group `i`, every free-parameter column whose flag in the
sensor's free-restricted sparsity vector is `false` is exactly zero: the
finite-difference loop perturbs only flagged indices and the other rows of
the transposed block keep their zero initialization. -/
theorem C3_sparsity_mask_columns (ec : ErrorCalc) (tp : List ℚ → Points → Points)
    (v : List ℚ) (hv : v.length = countTrue ec.free_list + 6 * ec.multisensors.length)
    (i k r c : Nat) (hi : i < ec.multisensors.length)
    (hk : k < (ec.multisensors.getD i default).sensors.length)
    (hc : c < countTrue ec.free_list)
    (hflag : (ec.sensorOptSparsity
      ((ec.multisensors.getD i default).sensors.getD k default)).getD c false = false)
    (hr1 : ec.groupRowStart i + ec.sensorRowStart i k ≤ r)
    (hr2 : r < ec.groupRowStart i + ec.sensorRowStart i k
      + ((ec.multisensors.getD i default).sensors.getD k default).get_residual_length) :
    jacEntry ec tp v r c = 0 := by
  have htake : (v.take (countTrue ec.free_list)).length = countTrue ec.free_list := by
    rw [List.length_take]; omega
  simp only [ErrorCalc.groupRowStart, ErrorCalc.sensorRowStart] at hr1 hr2
  rw [jacEntry_eval ec tp v hv]
  rw [groupLoop_at ec tp _ _ r c i k hi hk hr1 hr2 (by rw [htake]; exact hc)
    ec.multisensors 0 _ rfl (Nat.zero_le i)]
  exact single_sensor_params_jacobian_unflagged _ _ _ _ _ c hflag _

theorem C3_witness : jacEntry ecFree2 tpId vFree2 0 0 = 0 :=
  C3_sparsity_mask_columns ecFree2 tpId vFree2 (by decide) 0 0 0 0
    (by decide) (by decide) (by decide) (by decide) (by decide) (by decide)

/-- C4: both finite-difference kernels use the forward step
`epsilon = 1e-6 = 1/1000000`; for each perturbed index `i` the transposed
Jacobian's row `i` (column `i` of the returned Jacobian) equals
`(f(x0 + epsilon*e_i) - f(x0)) / epsilon` — each perturbation is undone
before the next index, so `e_i` is a pure unit perturbation of the
zero-initialized `dx`. The parameter kernel perturbs exactly the
sparsity-flagged indices (unflagged columns are zero); the pose kernel
perturbs every index `i < len(x0)` unconditionally. -/
theorem C4_fd_kernels :
    epsilon = 1 / 1000000 ∧
    (∀ (ec : ErrorCalc) (opt : List ℚ) (tpT : Points → Points) (tid : String)
        (s : Sensor) (i : Nat),
      ((ec.sensorOptSparsity s).getD i false = true →
        opt.length = countTrue ec.free_list →
        ∀ r, ec.single_sensor_params_jacobian opt tpT tid s r i
          = (divVec (subVec
              (ec.paramResidual tpT tid s
                (addVec opt ((List.replicate opt.length 0).set i epsilon)))
              (ec.paramResidual tpT tid s opt)) epsilon).getD r 0) ∧
      ((ec.sensorOptSparsity s).getD i false = false →
        ∀ r, ec.single_sensor_params_jacobian opt tpT tid s r i = 0)) ∧
    (∀ (ec : ErrorCalc) (tp : List ℚ → Points → Points) (opt pose : List ℚ)
        (ms : MultiSensor) (i : Nat), i < pose.length →
      ∀ r, ec.multisensor_pose_jacobian tp opt pose ms r i
        = (divVec (subVec
            (ec.poseResidual tp opt ms
              (addVec pose ((List.replicate pose.length 0).set i epsilon)))
            (ec.poseResidual tp opt ms pose)) epsilon).getD r 0) := by
  refine ⟨rfl, ?_, ?_⟩
  · intro ec opt tpT tid s i
    constructor
    · intro hflag hx r
      have hmem : i ∈ npWhere (ec.sensorOptSparsity s) := mem_npWhere_of_getD _ _ hflag
      have hlt : i < (ec.sensorOptSparsity s).length := getD_true_lt _ _ hflag
      have hlen : (ec.sensorOptSparsity s).length = countTrue ec.free_list :=
        npSelect_length _ _ _
      simp only [ErrorCalc.single_sensor_params_jacobian, transposeMat, rowsToMat]
      rw [fd_loop_getD_of_mem _ _ _ _ _ (npWhere_nodup _) i hmem _
        (by rw [List.length_replicate]; omega)]
    · intro hflag r
      exact single_sensor_params_jacobian_unflagged ec opt tpT tid s i hflag r
  · intro ec tp opt pose ms i hi r
    have hmem : i ∈ List.range pose.length := List.mem_range.mpr hi
    simp only [ErrorCalc.multisensor_pose_jacobian, transposeMat, rowsToMat]
    rw [fd_loop_getD_of_mem _ _ _ _ _ (List.nodup_range _) i hmem _
      (by rw [List.length_replicate]; omega)]

theorem C4_witness :
    epsilon = 1 / 1000000 ∧
    ecPt.multisensor_pose_jacobian tpPose [] poseZero msPt 0 0
      = (divVec (subVec
          (ecPt.poseResidual tpPose [] msPt
            (addVec poseZero ((List.replicate poseZero.length 0).set 0 epsilon)))
          (ecPt.poseResidual tpPose [] msPt poseZero)) epsilon).getD 0 0 ∧
    ecFree2.single_sensor_params_jacobian [1, 2] tpPtsId "cb" sensorNoDeps 0 0 = 0 :=
  ⟨C4_fd_kernels.1,
   C4_fd_kernels.2.2 ecPt tpPose [] poseZero msPt 0 (by decide) 0,
   (C4_fd_kernels.2.1 ecFree2 [1, 2] tpPtsId "cb" sensorNoDeps 0).2 (by decide) 0⟩

/-- C5: for every optimization vector matching the expected layout, the
Jacobian returned by `calculate_jacobian` has exactly
sum-of-all-group-residual-lengths rows and
`numFreeParams + 6 * numGroups` columns. -/
theorem C5_jacobian_shape (ec : ErrorCalc) (tp : List ℚ → Points → Points) (v : List ℚ)
    (hv : v.length = countTrue ec.free_list + 6 * ec.multisensors.length) :
    jacShape ec tp v
      = some ((ec.multisensors.map MultiSensor.get_residual_length).sum,
          countTrue ec.free_list + 6 * ec.multisensors.length) := by
  rw [jacShape_eval ec tp v hv, hv]

theorem C5_witness : jacShape ecPair tpId vPair = some (4, 12) := by
  rw [C5_jacobian_shape ecPair tpId vPair (by decide)]
  decide

/-- C6 counterexample: `ecPair` has two observation groups, but the vector
`vPair6` supplies only one pose 6-vector; the claim says the call must fail
fatally, yet `calculate_error` succeeds and returns the residual of the first
group alone — `zip` silently truncates the group list. -/
theorem C6_counterexample_group_mismatch :
    (chunk6 (vPair6.drop (countTrue ecPair.free_list))).length
      ≠ ecPair.multisensors.length ∧
    (ecPair.calculate_error tpId vPair6).1 = some [3, 4] := by
  constructor
  · decide
  · rfl

/-- C6 (amended): when the pose-block suffix length is not a multiple of 6,
`calculate_error` fails fatally inside `split_all`'s `numpy.reshape` —
before any model mutation, returning the `ErrorCalc` unchanged, with nothing
silently truncated or padded. A mismatch between the number of pose
6-vectors and the number of observation groups, however, is NOT detected:
whenever the free prefix is exact, the suffix length is a multiple of 6, and
there is at least one group and at least one pose row, the call returns a
residual — `zip` silently truncates the groups or the pose rows to the
shorter of the two. -/
theorem C6_amended_split_failures (ec : ErrorCalc) (tp : List ℚ → Points → Points)
    (v : List ℚ) :
    ((v.drop (countTrue ec.free_list)).length % 6 ≠ 0 →
      ec.calculate_error tp v = (none, ec)) ∧
    (countTrue ec.free_list ≤ v.length →
      (v.drop (countTrue ec.free_list)).length % 6 = 0 →
      ec.multisensors ≠ [] →
      v.drop (countTrue ec.free_list) ≠ [] →
      (ec.calculate_error tp v).1 = some (residualSpec ec tp v)) := by
  constructor
  · intro hmod
    exact calculate_error_fail_mod ec tp v hmod
  · intro hge hmod hms hdr
    rw [calculate_error_eval ec tp v hmod hge hms hdr]

theorem C6_witness :
    ecPair.calculate_error tpId [1] = (none, ecPair) ∧
    (ecPair.calculate_error tpId vPair6).1 = some (residualSpec ecPair tpId vPair6) :=
  ⟨(C6_amended_split_failures ecPair tpId [1]).1 (by decide),
   (C6_amended_split_failures ecPair tpId vPair6).2 (by decide) (by decide)
     (List.cons_ne_nil _ _) (by decide)⟩

/-- C7: the claim describes what `opt_runner` is supposed to do after the
solver returns, but the code cannot reach that point: line 227 calls
`reshape` unqualified although the module imports only `array`, `matrix`,
`zeros`, `cumsum`, `concatenate` from numpy (line 40) and binds no other
`reshape`, and line 238 reads `full_param_vec`, a name `opt_runner` never
assigns — both raise `NameError` in Python. -/
theorem C7_opt_runner_unbound_names :
    ("reshape" ∉ opt_runner_module_names ∧ "reshape" ∉ opt_runner_local_names) ∧
    ("full_param_vec" ∉ opt_runner_module_names ∧
      "full_param_vec" ∉ opt_runner_local_names) := by
  decide

/-- C8: for a fixed nonempty set of observation groups and sensors
(satisfying the declared-residual-length contract) and any optimization
vector of the expected layout, `calculate_error` returns the concatenation,
in group order, of each group's sensor residuals concatenated in sensor
order, and its length is the sum of the declared group residual lengths —
independent of the vector's numeric content. (With zero observation groups
the program never returns a residual at all: `numpy.concatenate` raises on
the empty list, so the length invariant is about the nonempty case.) -/
theorem C8_residual_structure (ec : ErrorCalc) (tp : List ℚ → Points → Points) (v : List ℚ)
    (hv : v.length = countTrue ec.free_list + 6 * ec.multisensors.length)
    (hms : ec.multisensors ≠ [])
    (hcon : ∀ ms ∈ ec.multisensors, ∀ s ∈ ms.sensors, ∀ st pts,
      (s.residual_fn st pts).length = s.residual_length) :
    (ec.calculate_error tp v).1 = some (residualSpec ec tp v) ∧
    (residualSpec ec tp v).length
      = (ec.multisensors.map MultiSensor.get_residual_length).sum := by
  have hN : ec.multisensors.length ≠ 0 := fun h => hms (List.length_eq_zero.mp h)
  have hdlen : (v.drop (countTrue ec.free_list)).length = 6 * ec.multisensors.length := by
    rw [List.length_drop]; omega
  have hmod : (v.drop (countTrue ec.free_list)).length % 6 = 0 := by
    rw [hdlen]; exact Nat.mul_mod_right 6 _
  have hge : countTrue ec.free_list ≤ v.length := by omega
  have hdr : v.drop (countTrue ec.free_list) ≠ [] := by
    intro h
    rw [h] at hdlen
    simp only [List.length_nil] at hdlen
    omega
  have hchunk : (chunk6 (v.drop (countTrue ec.free_list))).length = ec.multisensors.length :=
    chunk6_length _ _ hdlen
  constructor
  · rw [calculate_error_eval ec tp v hmod hge hms hdr]
  · simp only [residualSpec]
    exact resid_len_aux ec.rp_model _ tp ec.multisensors _ hchunk.symm hcon

theorem C8_witness :
    (ecPair.calculate_error tpId vPair).1 = some (residualSpec ecPair tpId vPair) ∧
    (residualSpec ecPair tpId vPair).length = 4 := by
  have h := C8_residual_structure ecPair tpId vPair (by decide) (List.cons_ne_nil _ _) (by
    intro ms hms s hs st pts
    simp only [ecPair, List.mem_cons, List.not_mem_nil, or_false] at hms
    rcases hms with rfl | rfl <;>
      · simp only [msPair, List.mem_cons, List.not_mem_nil, or_false] at hs
        subst hs
        rfl)
  exact ⟨h.1, by rw [h.2]; decide⟩

/-- C9: calling `calculate_error` twice in succession with the same
optimization vector returns identical residuals: although each call
overwrites the shared parameter-model state in place, everything the residual
depends on is re-derived from the input vector and the immutable cached
baseline (`_expanded_params`, `_free_list`) on every call. -/
theorem C9_error_idempotent (ec : ErrorCalc) (tp : List ℚ → Points → Points) (v : List ℚ) :
    ((ec.calculate_error tp v).2.calculate_error tp v).1 = (ec.calculate_error tp v).1 := by
  obtain ⟨h1, h2, h3, h4⟩ := calculate_error_snd_fields ec tp v
  exact calculate_error_fst_congr _ ec tp v h1 h2 h3 h4

/-- C10: when a sensor's sparsity dictionary omits a category,
`single_sensor_params_jacobian` fills it with the empty dictionary before
calling `calc_free`, so every free-parameter column whose full-vector index
falls inside that category's segment is treated as not-depended-on and stays
exactly zero — no error is raised. -/
theorem C10_missing_category (ec : ErrorCalc) (opt : List ℚ) (tpT : Points → Points)
    (tid : String) (s : Sensor) (cat : ParamCategory)
    (hmiss : s.build_sparsity_dict cat = none)
    (col : Nat) (hcol : col < countTrue ec.free_list)
    (hseg1 : ec.rp_model.catStart cat ≤ (npWhere ec.free_list).getD col 0)
    (hseg2 : (npWhere ec.free_list).getD col 0
      < ec.rp_model.catStart cat + ec.rp_model.catLen cat) :
    ∀ r, ec.single_sensor_params_jacobian opt tpT tid s r col = 0 := by
  apply single_sensor_params_jacobian_unflagged
  show ((npWhere ec.free_list).map (fun i =>
      (ec.rp_model.calc_free (fillRequired s.build_sparsity_dict)).getD i false)).getD
      col false = false
  rw [getD_map_idx _ _ _ col (by rw [npWhere_length]; exact hcol)]
  obtain ⟨off, hoff, hofflt⟩ : ∃ off, (npWhere ec.free_list).getD col 0
      = ec.rp_model.catStart cat + off ∧ off < ec.rp_model.catLen cat :=
    ⟨(npWhere ec.free_list).getD col 0 - ec.rp_model.catStart cat, by omega, by omega⟩
  rw [hoff, calc_free_segment _ _ cat off hofflt]
  rw [show fillRequired s.build_sparsity_dict cat = [] from by simp [fillRequired, hmiss]]
  rw [ec.rp_model.catFree_empty cat, getD_replicate]
  split <;> rfl

theorem C10_witness :
    ecCat1.single_sensor_params_jacobian [7] tpPtsId "cb" sensorNoDeps 0 0 = 0 :=
  C10_missing_category ecCat1 [7] tpPtsId "cb" sensorNoDeps ParamCategory.dh_chains rfl 0
    (by decide) (by decide) (by decide) 0
